import Mathlib

/-!
Shallow embedding of `src/tools/expotools/src/commands/WorkflowDispatch.ts`.

The command is a linear pipeline: check `GITHUB_TOKEN`, GET the workflow
listing, filter and sort it, resolve a workflow id (by argument match or by
an interactive prompt), resolve a git reference, and POST a dispatch event.
Every external interaction (HTTP, git, the interactive terminal, the local
filesystem, the locale-sensitive comparator) is a parameter, and each
function additionally returns the ordered list of side effects it performs,
so that claims about request ordering and about what the requests contain
can be stated.
-/

namespace WorkflowDispatch

/-- A workflow object from the GitHub listing response: the `Workflow` type of
`WorkflowDispatch.ts` (`id`, `name`, `path`) together with the `state` field
that the filter in `getWorkflowsAsync` reads from the raw response objects. -/
structure Workflow where
  id : Nat
  name : String
  path : String
  state : String
deriving Repr, DecidableEq

/-- JavaScript truthiness of an optional string: `undefined` and `""` are
falsy, every other string is truthy.  Models checks such as
`!process.env.GITHUB_TOKEN`, `process.env.CI`, `!workflowName` and
`options.ref || ...`. -/
def strTruthy : Option String → Bool
  | none => false
  | some s => !s.isEmpty

/-- JavaScript truthiness of an optional number: `null`/`undefined` and `0`
are falsy.  Models the `!workflowId` check in `main`. -/
def numTruthy : Option Nat → Bool
  | none => false
  | some n => n != 0

/-- Renders a `number | null` value the way JavaScript template literals do,
for the `Unable to find workflow with ID \`${workflowId}\`.` message. -/
def showNullableNum : Option Nat → String
  | none => "null"
  | some n => toString n

/-- HTTP headers that the script ever sets: at most an `authorization` entry. -/
structure Headers where
  authorization : Option String
deriving Repr, DecidableEq

/-- Console output produced through the logger. -/
inductive LogEvent where
  | error (message payload : String)
  | success (message : String)
deriving Repr, DecidableEq

/-- An observable side effect of one invocation, in the order performed:
the listing GET, the dispatch POST, showing the interactive prompt with its
choices, querying git for the current branch, or writing a log line. -/
inductive Effect where
  | httpGetWorkflows (headers : Headers) (owner repo : String)
  | httpDispatch (headers : Headers) (owner repo : String) (workflowId : Nat) (ref : String)
  | prompt (choices : List (String × Nat))
  | gitCurrentBranch
  | log (e : LogEvent)
deriving Repr, DecidableEq

/-- The response of the dispatch POST: its HTTP status and its full
serialization (what `JSON.stringify(response, null, 2)` would print). -/
structure DispatchResponse where
  status : Nat
  serialized : String
deriving Repr, DecidableEq

/-- The environment variables the command reads. -/
structure Env where
  githubToken : Option String
  ci : Option String
deriving Repr, DecidableEq

/-- The parsed `--ref` option (`CommandOptions` in the source). -/
structure CommandOptions where
  ref : Option String
deriving Repr, DecidableEq

/-- Modelled from the spec: `filterAsync` is imported from `../Utils`, which is
not part of this excerpt.  The spec describes the existence checks as a
concurrent fan-out that must all complete before filtering proceeds, keeping
exactly the elements whose predicate resolved truthy; with the filesystem
modelled as a pure predicate this is list filtering. -/
def filterAsync (p : α → Bool) (xs : List α) : List α := xs.filter p

/-- The filter predicate inside `getWorkflowsAsync`: truthy `name`, truthy
`path`, state `"active"`, and `fs.pathExists(path.join(EXPO_DIR, workflow.path))`;
the joined-path existence test is modelled by the predicate `pathExists`
applied to the workflow-relative path. -/
def eligible (pathExists : String → Bool) (w : Workflow) : Bool :=
  !w.name.isEmpty && !w.path.isEmpty && w.state == "active" && pathExists w.path

/-- Models `getWorkflowsAsync`: GET the listing for the fixed `expo/expo`
repository (no authorization header is set on this request), filter it to the
eligible workflows, and sort the result with
`workflows.sort((a, b) => a.name.localeCompare(b.name))`.  The
locale-sensitive comparator is the parameter `lc` (the integer returned by
`localeCompare`); ECMAScript `Array.prototype.sort` is required to be stable,
which `List.mergeSort` on the comparator `lc _ _ ≤ 0` models. -/
def getWorkflowsAsync (pathExists : String → Bool) (lc : String → String → Int)
    (response : List Workflow) : List Effect × List Workflow :=
  ([Effect.httpGetWorkflows ⟨none⟩ "expo" "expo"],
    (filterAsync (eligible pathExists) response).mergeSort
      (fun a b => lc a.name b.name ≤ 0))

/-- Models `promptWorkflowIdAsync`: renders an interactive list whose choices
are `{ name: workflow.name, value: workflow.id }` and returns the value of
the choice the user picks.  The terminal interaction is the parameter
`select`; it yields `none` when the prompt cannot produce an answer (inquirer
never resolves to a choice value that was not rendered). -/
def promptWorkflowIdAsync (select : List (String × Nat) → Option Nat)
    (workflows : List Workflow) : List Effect × Option Nat :=
  let choices := workflows.map fun w => (w.name, w.id)
  ([Effect.prompt choices], select choices)

/-- The matching predicate inside `findWorkflowIdAsync`, applied to the
lowercased argument `slug`: the workflow's lowercased name equals `slug`, or
its lowercased path equals `.github/workflows/<slug>.yml`. -/
def workflowMatches (slug : String) (w : Workflow) : Bool :=
  w.name.toLower == slug || w.path.toLower == ".github/workflows/" ++ slug ++ ".yml"

/-- Models `findWorkflowIdAsync`: on a falsy name it throws on CI and prompts
otherwise; on a truthy name it lowercases the name and returns the id of the
first workflow satisfying `workflowMatches`, or `null` when none does. -/
def findWorkflowIdAsync (ci : Option String) (select : List (String × Nat) → Option Nat)
    (workflows : List Workflow) (workflowName : Option String) :
    List Effect × Except String (Option Nat) :=
  if !strTruthy workflowName then
    if strTruthy ci then
      ([], Except.error "Command requires `workflowName` argument when run on the CI.")
    else
      let (es, r) := promptWorkflowIdAsync select workflows
      (es, Except.ok r)
  else
    let slug := (workflowName.getD "").toLower
    let workflow := workflows.find? (workflowMatches slug)
    ([], Except.ok (workflow.map (·.id)))

/-- Outcome of `dispatchWorkflowAsync`: an explicit `process.exit`, or a
normal return (after which the process exits 0). -/
inductive DispatchOutcome where
  | exit (code : Nat)
  | returned
deriving Repr, DecidableEq

/-- Models `dispatchWorkflowAsync`: POST the dispatch event for the fixed
`expo/expo` repository with the `token ${GITHUB_TOKEN}` authorization header,
then, on a status other than 204, log the serialized response as an error and
exit 1; otherwise log success and return. -/
def dispatchWorkflowAsync (token : Option String) (workflowId : Nat) (ref : String)
    (response : DispatchResponse) : List Effect × DispatchOutcome :=
  let req := Effect.httpDispatch ⟨some ("token " ++ token.getD "undefined")⟩
    "expo" "expo" workflowId ref
  if response.status ≠ 204 then
    ([req, Effect.log (LogEvent.error "💥 Dispatching workflow failed with response"
        response.serialized)],
      DispatchOutcome.exit 1)
  else
    ([req, Effect.log (LogEvent.success "🎉 Successfully dispatched workflow event ")],
      DispatchOutcome.returned)

/-- Final state of one invocation: an uncaught thrown error, an explicit
`process.exit`, or normal completion (exit code 0). -/
inductive MainOutcome where
  | thrown (message : String)
  | exited (code : Nat)
  | completed
deriving Repr, DecidableEq

/-- Models `main`: the whole pipeline.  World inputs are the environment, the
filesystem predicate, the locale comparator, the listing response, the
terminal interaction, the current git branch, and the dispatch response;
command inputs are the positional `workflowName` and the parsed options.
Returns the ordered effect trace and the outcome. -/
def main (env : Env) (pathExists : String → Bool) (lc : String → String → Int)
    (listing : List Workflow) (select : List (String × Nat) → Option Nat)
    (currentBranch : String) (dispatchResponse : DispatchResponse)
    (workflowName : Option String) (options : CommandOptions) :
    List Effect × MainOutcome :=
  if !strTruthy env.githubToken then
    ([], MainOutcome.thrown "Environment variable `GITHUB_TOKEN` must be set.")
  else
    let (e1, workflows) := getWorkflowsAsync pathExists lc listing
    let (e2, found) := findWorkflowIdAsync env.ci select workflows workflowName
    match found with
    | Except.error msg => (e1 ++ e2, MainOutcome.thrown msg)
    | Except.ok workflowId =>
      let (e3, ref) :=
        if strTruthy options.ref then ([], options.ref.getD "")
        else ([Effect.gitCurrentBranch], currentBranch)
      if !numTruthy workflowId
          || !(workflows.any fun w => (some w.id : Option Nat) == workflowId) then
        (e1 ++ e2 ++ e3,
          MainOutcome.thrown
            ("Unable to find workflow with ID `" ++ showNullableNum workflowId ++ "`."))
      else
        let (e4, out) :=
          dispatchWorkflowAsync env.githubToken (workflowId.getD 0) ref dispatchResponse
        (e1 ++ e2 ++ e3 ++ e4,
          match out with
          | DispatchOutcome.exit c => MainOutcome.exited c
          | DispatchOutcome.returned => MainOutcome.completed)

/-! Shared sample data and helper facts used by the proofs below. -/

/-- A terminal interaction that never yields a choice; instantiates `select`
where the prompt is unreachable or unanswered. -/
def selectNone : List (String × Nat) → Option Nat := fun _ => none

/-- Sample workflow: an eligible build workflow. -/
def sampleBuild : Workflow := ⟨1, "Build", ".github/workflows/build.yml", "active"⟩

/-- Sample workflow: an eligible test workflow. -/
def sampleTest : Workflow := ⟨2, "Test", ".github/workflows/test.yml", "active"⟩

/-- Sample workflow: ineligible because its name is empty. -/
def sampleBroken : Workflow := ⟨3, "", ".github/workflows/broken.yml", "active"⟩

/-- Sample listing response containing both eligible and ineligible entries. -/
def sampleListing : List Workflow := [sampleBroken, sampleBuild, sampleTest]

/-- Sample filesystem: exactly the three sample workflow paths exist. -/
def samplePathExists (p : String) : Bool :=
  [".github/workflows/build.yml", ".github/workflows/test.yml",
    ".github/workflows/broken.yml"].contains p

/-- Lexicographic comparison of character lists, used to build a concrete
locale comparator for the sample runs. -/
def strCmpAux : List Char → List Char → Int
  | [], [] => 0
  | [], _ :: _ => -1
  | _ :: _, [] => 1
  | a :: as, b :: bs => if a < b then -1 else if b < a then 1 else strCmpAux as bs

theorem strCmpAux_refl : ∀ as : List Char, strCmpAux as as = 0
  | [] => rfl
  | a :: as => by simp [strCmpAux, lt_irrefl, strCmpAux_refl as]

theorem strCmpAux_total : ∀ as bs : List Char, strCmpAux as bs ≤ 0 ∨ strCmpAux bs as ≤ 0
  | [], [] => Or.inl (by simp [strCmpAux])
  | [], _ :: _ => Or.inl (by simp [strCmpAux])
  | _ :: _, [] => Or.inr (by simp [strCmpAux])
  | a :: as, b :: bs => by
    rcases lt_trichotomy a b with h | h | h
    · exact Or.inl (by simp [strCmpAux, h])
    · subst h
      rcases strCmpAux_total as bs with ih | ih
      · exact Or.inl (by simpa [strCmpAux, lt_irrefl] using ih)
      · exact Or.inr (by simpa [strCmpAux, lt_irrefl] using ih)
    · exact Or.inr (by simp [strCmpAux, h])

theorem strCmpAux_trans : ∀ as bs cs : List Char,
    strCmpAux as bs ≤ 0 → strCmpAux bs cs ≤ 0 → strCmpAux as cs ≤ 0
  | [], _, [] => fun _ _ => by simp [strCmpAux]
  | [], _, _ :: _ => fun _ _ => by simp [strCmpAux]
  | _ :: _, [], _ => fun h1 _ => by simp [strCmpAux] at h1
  | _ :: _, _ :: _, [] => fun _ h2 => by simp [strCmpAux] at h2
  | a :: as, b :: bs, c :: cs => fun h1 h2 => by
    simp only [strCmpAux] at h1 h2 ⊢
    rcases lt_trichotomy a b with hab | hab | hab
    · rcases lt_trichotomy b c with hbc | hbc | hbc
      · rw [if_pos (lt_trans hab hbc)]; omega
      · subst hbc; rw [if_pos hab]; omega
      · rw [if_neg (asymm hbc), if_pos hbc] at h2; omega
    · subst hab
      rw [if_neg (lt_irrefl a), if_neg (lt_irrefl a)] at h1
      rcases lt_trichotomy a c with hac | hac | hac
      · rw [if_pos hac]; omega
      · subst hac
        rw [if_neg (lt_irrefl a), if_neg (lt_irrefl a)] at h2 ⊢
        exact strCmpAux_trans as bs cs h1 h2
      · rw [if_neg (asymm hac), if_pos hac] at h2; omega
    · rw [if_neg (asymm hab), if_pos hab] at h1; omega

/-- A concrete locale comparator: plain lexicographic string comparison. -/
def lcStd (a b : String) : Int := strCmpAux a.data b.data

theorem lcStd_trans (a b c : String) (hab : lcStd a b ≤ 0) (hbc : lcStd b c ≤ 0) :
    lcStd a c ≤ 0 :=
  strCmpAux_trans a.data b.data c.data hab hbc

theorem lcStd_total (a b : String) : lcStd a b ≤ 0 ∨ lcStd b a ≤ 0 :=
  strCmpAux_total a.data b.data

theorem lcStd_refl (a : String) : lcStd a a = 0 :=
  strCmpAux_refl a.data

theorem toLower_append (a b : String) : (a ++ b).toLower = a.toLower ++ b.toLower := by
  simp [String.toLower, String.map_eq, String.ext_iff]

theorem mem_getWorkflows_iff (pathExists : String → Bool) (lc : String → String → Int)
    (response : List Workflow) (w : Workflow) :
    w ∈ (getWorkflowsAsync pathExists lc response).2 ↔
      w ∈ response ∧ eligible pathExists w = true := by
  simp [getWorkflowsAsync, filterAsync, List.mem_mergeSort, List.mem_filter]

theorem eligible_iff (pathExists : String → Bool) (w : Workflow) :
    eligible pathExists w = true ↔
      (w.name ≠ "" ∧ w.path ≠ "" ∧ w.state = "active" ∧ pathExists w.path = true) := by
  simp [eligible, Bool.eq_false_iff, String.isEmpty_iff, and_assoc]

/-! The claims. -/

/-- C2: every workflow in the list returned by the listing operation has a
non-empty name, a non-empty path, state equal to "active", and a locally
existing path; every candidate of the response failing any one of these four
conditions is excluded from the returned list. -/
theorem C2_listing_filter (pathExists : String → Bool) (lc : String → String → Int)
    (response : List Workflow) :
    (∀ w ∈ (getWorkflowsAsync pathExists lc response).2,
      w.name ≠ "" ∧ w.path ≠ "" ∧ w.state = "active" ∧ pathExists w.path = true) ∧
    (∀ w ∈ response,
      ¬(w.name ≠ "" ∧ w.path ≠ "" ∧ w.state = "active" ∧ pathExists w.path = true) →
      w ∉ (getWorkflowsAsync pathExists lc response).2) := by
  refine ⟨fun w hw => ?_, fun w _ hbad hmem => ?_⟩
  · exact (eligible_iff pathExists w).mp
      ((mem_getWorkflows_iff pathExists lc response w).mp hw).2
  · exact hbad ((eligible_iff pathExists w).mp
      ((mem_getWorkflows_iff pathExists lc response w).mp hmem).2)

/-- Witness for C2 at the sample listing: the eligible test workflow satisfies
all four conditions, and the empty-named candidate is excluded. -/
theorem C2_listing_filter_witness :
    (sampleTest.name ≠ "" ∧ sampleTest.path ≠ "" ∧ sampleTest.state = "active" ∧
      samplePathExists sampleTest.path = true) ∧
    sampleBroken ∉ (getWorkflowsAsync samplePathExists lcStd sampleListing).2 :=
  ⟨(C2_listing_filter samplePathExists lcStd sampleListing).1 sampleTest
      ((mem_getWorkflows_iff samplePathExists lcStd sampleListing sampleTest).mpr (by decide)),
    (C2_listing_filter samplePathExists lcStd sampleListing).2 sampleBroken (by decide)
      (by decide)⟩

/-- C4: with `GITHUB_TOKEN` absent the invocation throws the configuration
error immediately: the effect trace is empty, so neither the listing GET nor
the dispatch POST is issued. -/
theorem C4_missing_token (env : Env) (pathExists : String → Bool)
    (lc : String → String → Int) (listing : List Workflow)
    (select : List (String × Nat) → Option Nat) (branch : String)
    (resp : DispatchResponse) (name : Option String) (opts : CommandOptions)
    (h : env.githubToken = none) :
    main env pathExists lc listing select branch resp name opts =
      ([], MainOutcome.thrown "Environment variable `GITHUB_TOKEN` must be set.") := by
  simp [main, h, strTruthy]

/-- Witness for C4 at a concrete environment with no token. -/
theorem C4_missing_token_witness :
    main ⟨none, none⟩ samplePathExists lcStd sampleListing selectNone "main"
        ⟨204, "{}"⟩ (some "build") ⟨none⟩ =
      ([], MainOutcome.thrown "Environment variable `GITHUB_TOKEN` must be set.") :=
  C4_missing_token ⟨none, none⟩ samplePathExists lcStd sampleListing selectNone "main"
    ⟨204, "{}"⟩ (some "build") ⟨none⟩ rfl

/-- C10: an empty-string workflow name behaves exactly like an absent one:
resolution never matches it against any workflow, and instead throws the
CI configuration error or shows the interactive prompt. -/
theorem C10_empty_name (ci : Option String) (select : List (String × Nat) → Option Nat)
    (ws : List Workflow) :
    findWorkflowIdAsync ci select ws (some "") = findWorkflowIdAsync ci select ws none ∧
    (strTruthy ci = true →
      findWorkflowIdAsync ci select ws (some "") =
        ([], Except.error "Command requires `workflowName` argument when run on the CI.")) ∧
    (strTruthy ci = false →
      findWorkflowIdAsync ci select ws (some "") =
        ([Effect.prompt (ws.map fun w => (w.name, w.id))],
          Except.ok (select (ws.map fun w => (w.name, w.id))))) := by
  have h0 : strTruthy (some "") = false := by decide
  have h1 : strTruthy (none : Option String) = false := rfl
  refine ⟨?_, fun hci => ?_, fun hci => ?_⟩
  · simp only [findWorkflowIdAsync, h0, h1]
    simp
  · simp only [findWorkflowIdAsync, h0, hci]
    simp
  · simp only [findWorkflowIdAsync, h0, hci, promptWorkflowIdAsync]
    simp

/-- Witness for C10: on CI the empty name throws the configuration error;
off CI it shows the prompt over the passed list. -/
theorem C10_empty_name_witness :
    findWorkflowIdAsync (some "true") selectNone [sampleBuild] (some "") =
      ([], Except.error "Command requires `workflowName` argument when run on the CI.") ∧
    findWorkflowIdAsync none selectNone [sampleBuild] (some "") =
      ([Effect.prompt [("Build", 1)]], Except.ok none) :=
  ⟨(C10_empty_name (some "true") selectNone [sampleBuild]).2.1 (by decide), by
    have h := (C10_empty_name none selectNone [sampleBuild]).2.2 (by decide)
    simpa [sampleBuild, selectNone] using h⟩


theorem sample_filter_eval :
    filterAsync (eligible samplePathExists) sampleListing = [sampleBuild, sampleTest] := by
  decide

theorem getWorkflows_sample_eval :
    (getWorkflowsAsync samplePathExists lcStd sampleListing).2 = [sampleBuild, sampleTest] := by
  show (filterAsync (eligible samplePathExists) sampleListing).mergeSort _ = _
  rw [sample_filter_eval]
  exact List.mergeSort_of_sorted (by decide)


/-- C7: the list returned by the listing operation is a permutation of the
eligible entries sorted ascending by name under the locale comparator; the
sort is stable (eligible workflows with equal names keep their relative
order) and total (any two returned entries are comparable). -/
theorem C7_sorted_stable_total (pathExists : String → Bool) (lc : String → String → Int)
    (response : List Workflow)
    (htrans : ∀ a b c : String, lc a b ≤ 0 → lc b c ≤ 0 → lc a c ≤ 0)
    (htotal : ∀ a b : String, lc a b ≤ 0 ∨ lc b a ≤ 0)
    (hrefl : ∀ a : String, lc a a = 0) :
    List.Pairwise (fun a b : Workflow => lc a.name b.name ≤ 0)
      (getWorkflowsAsync pathExists lc response).2 ∧
    (getWorkflowsAsync pathExists lc response).2.Perm
      (filterAsync (eligible pathExists) response) ∧
    (∀ a b : Workflow, a.name = b.name →
      List.Sublist [a, b] (filterAsync (eligible pathExists) response) →
      List.Sublist [a, b] (getWorkflowsAsync pathExists lc response).2) ∧
    (∀ a b : Workflow, a ∈ (getWorkflowsAsync pathExists lc response).2 →
      b ∈ (getWorkflowsAsync pathExists lc response).2 →
      lc a.name b.name ≤ 0 ∨ lc b.name a.name ≤ 0) := by
  have trans' : ∀ a b c : Workflow, decide (lc a.name b.name ≤ 0) = true →
      decide (lc b.name c.name ≤ 0) = true → decide (lc a.name c.name ≤ 0) = true :=
    fun a b c h1 h2 =>
      decide_eq_true (htrans _ _ _ (of_decide_eq_true h1) (of_decide_eq_true h2))
  have total' : ∀ a b : Workflow,
      (decide (lc a.name b.name ≤ 0) || decide (lc b.name a.name ≤ 0)) = true := by
    intro a b
    rcases htotal a.name b.name with h | h <;> simp [decide_eq_true h]
  refine ⟨?_, ?_, fun a b hn hsub => ?_, fun a b _ _ => htotal a.name b.name⟩
  · have hp := List.sorted_mergeSort trans' total'
      (filterAsync (eligible pathExists) response)
    simp only [getWorkflowsAsync]
    exact hp.imp fun h => of_decide_eq_true h
  · simp only [getWorkflowsAsync]
    exact List.mergeSort_perm _ _
  · have hab : decide (lc a.name b.name ≤ 0) = true := by
      rw [hn]
      exact decide_eq_true (le_of_eq (hrefl b.name))
    simp only [getWorkflowsAsync]
    exact List.pair_sublist_mergeSort trans' total' hab hsub

/-- Witness for C7: the abstract comparator hypotheses hold for the concrete
lexicographic comparator, so the sample listing is sorted, stable and total. -/
theorem C7_sorted_stable_total_witness :
    List.Pairwise (fun a b : Workflow => lcStd a.name b.name ≤ 0)
      (getWorkflowsAsync samplePathExists lcStd sampleListing).2 ∧
    (getWorkflowsAsync samplePathExists lcStd sampleListing).2.Perm
      (filterAsync (eligible samplePathExists) sampleListing) ∧
    (∀ a b : Workflow, a.name = b.name →
      List.Sublist [a, b] (filterAsync (eligible samplePathExists) sampleListing) →
      List.Sublist [a, b] (getWorkflowsAsync samplePathExists lcStd sampleListing).2) ∧
    (∀ a b : Workflow, a ∈ (getWorkflowsAsync samplePathExists lcStd sampleListing).2 →
      b ∈ (getWorkflowsAsync samplePathExists lcStd sampleListing).2 →
      lcStd a.name b.name ≤ 0 ∨ lcStd b.name a.name ≤ 0) :=
  C7_sorted_stable_total samplePathExists lcStd sampleListing lcStd_trans lcStd_total lcStd_refl


/-- C1: resolution lowercases the supplied name and returns the identifier of
the first listed workflow whose name equals it case-insensitively or whose
path equals `.github/workflows/<name>.yml` case-insensitively; when no
workflow matches it yields no identifier and the invocation fails with the
not-found error without any dispatch request being made. -/
theorem C1_name_resolution (env : Env) (pathExists : String → Bool)
    (lc : String → String → Int) (listing : List Workflow)
    (select : List (String × Nat) → Option Nat) (branch : String)
    (resp : DispatchResponse) (opts : CommandOptions)
    (ci : Option String) (ws : List Workflow) (s : String) (hs : s ≠ "") :
    (findWorkflowIdAsync ci select ws (some s)).2 =
      Except.ok ((ws.find? fun w =>
        w.name.toLower == s.toLower ||
        w.path.toLower == (".github/workflows/" ++ s ++ ".yml").toLower).map (·.id)) ∧
    (∀ w, ws.find? (workflowMatches s.toLower) = some w →
      w ∈ ws ∧ workflowMatches s.toLower w = true) ∧
    ((∀ w ∈ (getWorkflowsAsync pathExists lc listing).2, workflowMatches s.toLower w = false) →
      strTruthy env.githubToken = true →
      (main env pathExists lc listing select branch resp (some s) opts).2 =
        MainOutcome.thrown "Unable to find workflow with ID `null`." ∧
      ∀ hd o r wid rf, Effect.httpDispatch hd o r wid rf ∉
        (main env pathExists lc listing select branch resp (some s) opts).1) := by
  have hst : strTruthy (some s) = true := by
    simp [strTruthy, Bool.eq_false_iff, String.isEmpty_iff, hs]
  have hdir : (".github/workflows/").toLower = ".github/workflows/" := by
    simp [String.toLower, String.map_eq]
  have hyml : (".yml").toLower = ".yml" := by
    simp [String.toLower, String.map_eq]
  have hpat : (".github/workflows/" ++ s ++ ".yml").toLower =
      ".github/workflows/" ++ s.toLower ++ ".yml" := by
    rw [toLower_append, toLower_append, hdir, hyml]
  have hfun : workflowMatches s.toLower = fun w =>
      w.name.toLower == s.toLower ||
      w.path.toLower == ".github/workflows/" ++ s.toLower ++ ".yml" := by
    funext w
    simp [workflowMatches]
  refine ⟨?_, fun w hw => ⟨List.mem_of_find?_eq_some hw, List.find?_some hw⟩, fun hnone htok => ?_⟩
  · simp only [findWorkflowIdAsync, hst, Bool.not_true, Bool.false_eq_true, if_false,
      Option.getD_some, hpat, hfun]
  · have hfind : ((getWorkflowsAsync pathExists lc listing).2).find?
        (workflowMatches s.toLower) = none := List.find?_eq_none.mpr (by
      intro w hw
      simp [hnone w hw])
    simp only [getWorkflowsAsync] at hfind
    constructor
    · simp [main, htok, findWorkflowIdAsync, hst, hfind, numTruthy, showNullableNum,
        getWorkflowsAsync]
    · intro hd o r wid rf
      cases href : strTruthy opts.ref <;>
        simp [main, htok, findWorkflowIdAsync, hst, hfind, href, numTruthy, getWorkflowsAsync]


/-- Witness for C1: with argument "nope" over the sample data no workflow
matches, so the invocation throws the not-found error and no dispatch request
appears in the trace. -/
theorem C1_name_resolution_witness :
    (main ⟨some "tok", none⟩ samplePathExists lcStd sampleListing selectNone "main"
        ⟨204, "{}"⟩ (some "nope") ⟨none⟩).2 =
      MainOutcome.thrown "Unable to find workflow with ID `null`." ∧
    Effect.httpDispatch ⟨some "token tok"⟩ "expo" "expo" 1 "main" ∉
      (main ⟨some "tok", none⟩ samplePathExists lcStd sampleListing selectNone "main"
        ⟨204, "{}"⟩ (some "nope") ⟨none⟩).1 := by
  have hnone : ∀ w ∈ (getWorkflowsAsync samplePathExists lcStd sampleListing).2,
      workflowMatches "nope".toLower w = false := by
    rw [getWorkflows_sample_eval]
    intro w hw
    rcases List.mem_cons.mp hw with h | h
    · subst h
      simp [workflowMatches, String.toLower, String.map_eq, sampleBuild]
    · rcases List.mem_cons.mp h with h2 | h2
      · subst h2
        simp [workflowMatches, String.toLower, String.map_eq, sampleTest]
      · simp at h2
  have h3 := (C1_name_resolution ⟨some "tok", none⟩ samplePathExists lcStd sampleListing
    selectNone "main" ⟨204, "{}"⟩ ⟨none⟩ none [sampleBuild, sampleTest] "nope"
    (by decide)).2.2 hnone (by decide)
  exact ⟨h3.1, h3.2 ⟨some "token tok"⟩ "expo" "expo" 1 "main"⟩


/-- C8: every identifier the resolution step returns, whether by name or path
matching or via the interactive prompt, is the id of some workflow in the
list it was given; hence the membership re-check in `main` never fails for a
non-null identifier. -/
theorem C8_resolved_id_member (ci : Option String) (select : List (String × Nat) → Option Nat)
    (ws : List Workflow) (name : Option String) (es : List Effect) (id : Nat)
    (hsel : ∀ cs n, select cs = some n → n ∈ cs.map Prod.snd)
    (hres : findWorkflowIdAsync ci select ws name = (es, Except.ok (some id))) :
    (∃ w ∈ ws, w.id = id) ∧
    (ws.any fun w => (some w.id : Option Nat) == some id) = true := by
  have hmem : ∃ w ∈ ws, w.id = id := by
    by_cases hn : strTruthy name = true
    · simp only [findWorkflowIdAsync, hn, Bool.not_true, Bool.false_eq_true, if_false,
        Prod.mk.injEq, Except.ok.injEq] at hres
      obtain ⟨-, hres⟩ := hres
      obtain ⟨w, hw, hid⟩ := Option.map_eq_some'.mp hres
      exact ⟨w, List.mem_of_find?_eq_some hw, hid⟩
    · have hn' : strTruthy name = false := by simpa using hn
      by_cases hci : strTruthy ci = true
      · simp [findWorkflowIdAsync, hn', hci] at hres
      · have hci' : strTruthy ci = false := by simpa using hci
        simp only [findWorkflowIdAsync, hn', hci', Bool.not_false, if_true,
          Bool.false_eq_true, if_false, promptWorkflowIdAsync, Prod.mk.injEq,
          Except.ok.injEq] at hres
        obtain ⟨-, hres⟩ := hres
        have hid := hsel _ _ hres
        simp only [List.map_map] at hid
        obtain ⟨w, hw, hid⟩ := List.mem_map.mp hid
        exact ⟨w, hw, hid⟩
  refine ⟨hmem, ?_⟩
  obtain ⟨w, hw, hid⟩ := hmem
  exact List.any_eq_true.mpr ⟨w, hw, by simp [hid]⟩

/-- Witness for C8: resolving "build" over the sample list returns id 1,
which belongs to the list, and the re-check succeeds. -/
theorem C8_resolved_id_member_witness :
    (∃ w ∈ [sampleBuild, sampleTest], w.id = 1) ∧
    ([sampleBuild, sampleTest].any fun w => (some w.id : Option Nat) == some 1) = true := by
  refine C8_resolved_id_member none selectNone [sampleBuild, sampleTest] (some "build") [] 1
    (fun cs n h => by simp [selectNone] at h) ?_
  have hb : "build".isEmpty = false := by decide
  simp [findWorkflowIdAsync, strTruthy, hb, workflowMatches, String.toLower, String.map_eq,
    sampleBuild, sampleTest]


/-- C5 counterexample: at a concrete invocation with a token present, CI set
and no name, the invocation does fail with the configuration error, but the
effect trace already contains the workflow-listing request, so the claim that
no remote call is attempted is false on the code. -/
theorem C5_counterexample :
    main ⟨some "tok", some "true"⟩ samplePathExists lcStd sampleListing selectNone "main"
        ⟨204, "{}"⟩ none ⟨none⟩ =
      ([Effect.httpGetWorkflows ⟨none⟩ "expo" "expo"],
        MainOutcome.thrown "Command requires `workflowName` argument when run on the CI.") ∧
    (main ⟨some "tok", some "true"⟩ samplePathExists lcStd sampleListing selectNone "main"
        ⟨204, "{}"⟩ none ⟨none⟩).1 ≠ [] := by
  constructor
  · decide
  · decide

/-- C5 (amended): with a token present, no workflow-name argument and the CI
indicator set, the invocation fails with the configuration error, no
interactive prompt is shown and no dispatch request is made, but the
workflow-listing request has already been issued before the check. -/
theorem C5_missing_name_on_ci (pathExists : String → Bool) (lc : String → String → Int)
    (listing : List Workflow) (select : List (String × Nat) → Option Nat)
    (branch : String) (resp : DispatchResponse) (opts : CommandOptions)
    (env : Env) (name : Option String)
    (htok : strTruthy env.githubToken = true)
    (hname : strTruthy name = false)
    (hci : strTruthy env.ci = true) :
    main env pathExists lc listing select branch resp name opts =
      ([Effect.httpGetWorkflows ⟨none⟩ "expo" "expo"],
        MainOutcome.thrown "Command requires `workflowName` argument when run on the CI.") := by
  simp [main, htok, findWorkflowIdAsync, hname, hci, getWorkflowsAsync]

/-- Witness for the amended C5 at a concrete input. -/
theorem C5_missing_name_on_ci_witness :
    main ⟨some "t", some "1"⟩ samplePathExists lcStd sampleListing selectNone "b"
        ⟨204, "{}"⟩ (some "") ⟨none⟩ =
      ([Effect.httpGetWorkflows ⟨none⟩ "expo" "expo"],
        MainOutcome.thrown "Command requires `workflowName` argument when run on the CI.") :=
  C5_missing_name_on_ci samplePathExists lcStd sampleListing selectNone "b" ⟨204, "{}"⟩
    ⟨none⟩ ⟨some "t", some "1"⟩ (some "") (by decide) (by decide) (by decide)


theorem getWorkflowsAsync_sample_pair :
    getWorkflowsAsync samplePathExists lcStd sampleListing =
      ([Effect.httpGetWorkflows ⟨none⟩ "expo" "expo"], [sampleBuild, sampleTest]) := by
  rw [getWorkflowsAsync, sample_filter_eval,
    List.mergeSort_of_sorted (l := [sampleBuild, sampleTest]) (by decide)]

theorem sample_find_build :
    [sampleBuild, sampleTest].find? (workflowMatches "build".toLower) = some sampleBuild := by
  simp [workflowMatches, String.toLower, String.map_eq, sampleBuild, List.find?]

theorem main_sample_build_eval (resp : DispatchResponse) (o : CommandOptions) :
    main ⟨some "tok", none⟩ samplePathExists lcStd sampleListing selectNone "main"
        resp (some "build") o =
      (Effect.httpGetWorkflows ⟨none⟩ "expo" "expo" ::
        ((if strTruthy o.ref then [] else [Effect.gitCurrentBranch]) ++
          (dispatchWorkflowAsync (some "tok") 1
            (if strTruthy o.ref then o.ref.getD "" else "main") resp).1),
        match (dispatchWorkflowAsync (some "tok") 1
            (if strTruthy o.ref then o.ref.getD "" else "main") resp).2 with
        | DispatchOutcome.exit c => MainOutcome.exited c
        | DispatchOutcome.returned => MainOutcome.completed) := by
  have htokt : strTruthy (some "tok") = true := by decide
  have hsb : strTruthy (some "build") = true := by decide
  have hid1 : sampleBuild.id = 1 := rfl
  have hid2 : sampleTest.id = 2 := rfl
  cases href : strTruthy o.ref <;>
    simp [main, getWorkflowsAsync_sample_pair, findWorkflowIdAsync, htokt, hsb,
      sample_find_build, href, numTruthy, hid1, hid2]


theorem findWorkflowIdAsync_effects (ci : Option String)
    (select : List (String × Nat) → Option Nat) (ws : List Workflow)
    (name : Option String) :
    (findWorkflowIdAsync ci select ws name).1 = [] ∨
    (findWorkflowIdAsync ci select ws name).1 =
      [Effect.prompt (ws.map fun w => (w.name, w.id))] := by
  rw [findWorkflowIdAsync]
  split_ifs <;> simp [promptWorkflowIdAsync]


theorem getWorkflowsAsync_effects (pathExists : String → Bool)
    (lc : String → String → Int) (response : List Workflow) :
    (getWorkflowsAsync pathExists lc response).1 =
      [Effect.httpGetWorkflows ⟨none⟩ "expo" "expo"] := rfl

theorem main_eq (env : Env) (pathExists : String → Bool) (lc : String → String → Int)
    (listing : List Workflow) (select : List (String × Nat) → Option Nat)
    (branch : String) (resp : DispatchResponse) (name : Option String)
    (opts : CommandOptions) (htok : strTruthy env.githubToken = true) :
    main env pathExists lc listing select branch resp name opts =
      (match (findWorkflowIdAsync env.ci select (getWorkflowsAsync pathExists lc listing).2
          name).2 with
       | Except.error msg =>
         (Effect.httpGetWorkflows ⟨none⟩ "expo" "expo" ::
           (findWorkflowIdAsync env.ci select (getWorkflowsAsync pathExists lc listing).2
             name).1,
          MainOutcome.thrown msg)
       | Except.ok wid =>
         if (!numTruthy wid || !((getWorkflowsAsync pathExists lc listing).2.any
              fun w => (some w.id : Option Nat) == wid)) = true then
           (Effect.httpGetWorkflows ⟨none⟩ "expo" "expo" ::
             ((findWorkflowIdAsync env.ci select (getWorkflowsAsync pathExists lc listing).2
                 name).1 ++
               (if strTruthy opts.ref = true then [] else [Effect.gitCurrentBranch])),
            MainOutcome.thrown
              ("Unable to find workflow with ID `" ++ showNullableNum wid ++ "`."))
         else
           (Effect.httpGetWorkflows ⟨none⟩ "expo" "expo" ::
             ((findWorkflowIdAsync env.ci select (getWorkflowsAsync pathExists lc listing).2
                 name).1 ++
               (if strTruthy opts.ref = true then [] else [Effect.gitCurrentBranch]) ++
               (dispatchWorkflowAsync env.githubToken (wid.getD 0)
                 (if strTruthy opts.ref = true then opts.ref.getD "" else branch) resp).1),
            match (dispatchWorkflowAsync env.githubToken (wid.getD 0)
                (if strTruthy opts.ref = true then opts.ref.getD "" else branch) resp).2 with
            | DispatchOutcome.exit c => MainOutcome.exited c
            | DispatchOutcome.returned => MainOutcome.completed)) := by
  rcases hfr : findWorkflowIdAsync env.ci select (getWorkflowsAsync pathExists lc listing).2
      name with ⟨es, fr⟩
  cases fr <;> cases hre : strTruthy opts.ref <;>
    simp [main, htok, hfr, hre, getWorkflowsAsync_effects]


/-- C6 counterexample: the `--ref` flag explicitly supplied as the empty
string (which JavaScript treats as falsy) does not bypass the branch lookup:
the invocation still queries git for the current branch and dispatches with
that branch instead of the supplied value. -/
theorem C6_counterexample :
    Effect.gitCurrentBranch ∈
      (main ⟨some "tok", none⟩ samplePathExists lcStd sampleListing selectNone "main"
        ⟨204, "{}"⟩ (some "build") ⟨some ""⟩).1 ∧
    Effect.httpDispatch ⟨some "token tok"⟩ "expo" "expo" 1 "main" ∈
      (main ⟨some "tok", none⟩ samplePathExists lcStd sampleListing selectNone "main"
        ⟨204, "{}"⟩ (some "build") ⟨some ""⟩).1 := by
  have hempty : strTruthy (some "") = false := by decide
  rw [main_sample_build_eval]
  constructor <;> simp [hempty, dispatchWorkflowAsync]

theorem mem_dispatch_trace (token : Option String) (wid : Nat) (ref : String)
    (resp : DispatchResponse) (e : Effect)
    (he : e ∈ (dispatchWorkflowAsync token wid ref resp).1) :
    e = Effect.httpDispatch ⟨some ("token " ++ token.getD "undefined")⟩ "expo" "expo" wid ref ∨
    ∃ l, e = Effect.log l := by
  simp only [dispatchWorkflowAsync] at he
  split at he <;> simp only [List.mem_cons, List.not_mem_nil, or_false] at he <;>
    rcases he with he | he <;> subst he
  · exact Or.inl rfl
  · exact Or.inr ⟨_, rfl⟩
  · exact Or.inl rfl
  · exact Or.inr ⟨_, rfl⟩

/-- C6 (amended): when `--ref` is supplied with a non-empty value, that value
is used verbatim as the reference of any dispatch request and the git query
for the current branch is never performed.  (The unamended claim fails for an
explicitly supplied empty string, which JavaScript treats like an absent
flag.) -/
theorem C6_explicit_ref (env : Env) (pathExists : String → Bool)
    (lc : String → String → Int) (listing : List Workflow)
    (select : List (String × Nat) → Option Nat) (branch : String)
    (resp : DispatchResponse) (name : Option String) (r : String) (hr : r ≠ "") :
    Effect.gitCurrentBranch ∉
      (main env pathExists lc listing select branch resp name ⟨some r⟩).1 ∧
    (∀ hd o rp wid rf, Effect.httpDispatch hd o rp wid rf ∈
      (main env pathExists lc listing select branch resp name ⟨some r⟩).1 → rf = r) := by
  have href : strTruthy (some r) = true := by
    simp [strTruthy, Bool.eq_false_iff, String.isEmpty_iff, hr]
  have hproj : (⟨some r⟩ : CommandOptions).ref = some r := rfl
  have key : ∀ e ∈ (main env pathExists lc listing select branch resp name ⟨some r⟩).1,
      e ≠ Effect.gitCurrentBranch ∧
      ∀ hd o rp wid rf, e = Effect.httpDispatch hd o rp wid rf → rf = r := by
    intro e he
    by_cases htok : strTruthy env.githubToken = true
    · rw [main_eq env pathExists lc listing select branch resp name ⟨some r⟩ htok] at he
      have hes := findWorkflowIdAsync_effects env.ci select
        (getWorkflowsAsync pathExists lc listing).2 name
      rcases hfr : (findWorkflowIdAsync env.ci select
          (getWorkflowsAsync pathExists lc listing).2 name).2 with msg | wid
      · rw [hfr] at he
        simp only [List.mem_cons] at he
        rcases he with he | he
        · subst he
          exact ⟨by simp, by simp⟩
        · rcases hes with hes | hes <;> rw [hes] at he <;> simp at he
          subst he
          exact ⟨by simp, by simp⟩
      · rw [hfr] at he
        by_cases hck : (!numTruthy wid || !((getWorkflowsAsync pathExists lc listing).2.any
            fun w => (some w.id : Option Nat) == wid)) = true
        · simp only [hck, if_true, hproj, href, List.mem_cons, List.mem_append,
            List.not_mem_nil, or_false] at he
          rcases he with he | he
          · subst he
            exact ⟨by simp, by simp⟩
          · rcases hes with hes | hes <;> rw [hes] at he <;> simp at he
            subst he
            exact ⟨by simp, by simp⟩
        · simp only [hck, Bool.false_eq_true, if_false, hproj, href, if_true,
            Option.getD_some, List.mem_cons, List.mem_append, List.append_nil,
            List.not_mem_nil, or_false] at he
          rcases he with he | he | he
          · subst he
            exact ⟨by simp, by simp⟩
          · rcases hes with hes | hes <;> rw [hes] at he <;> simp at he
            subst he
            exact ⟨by simp, by simp⟩
          · rcases mem_dispatch_trace _ _ _ _ _ he with hd1 | ⟨l, hd1⟩ <;> subst hd1
            · refine ⟨by simp, fun hd o rp wid2 rf2 heq => ?_⟩
              simp only [Effect.httpDispatch.injEq] at heq
              exact heq.2.2.2.2.symm
            · exact ⟨by simp, by simp⟩
    · have htok2 : strTruthy env.githubToken = false := by simpa using htok
      simp only [main, htok2, Bool.not_false, if_true] at he
      simp at he
  exact ⟨fun hgit => (key _ hgit).1 rfl,
    fun hd o rp wid rf hmem => (key _ hmem).2 hd o rp wid rf rfl⟩


/-- Witness for the amended C6 at a concrete non-empty ref. -/
theorem C6_explicit_ref_witness :
    Effect.gitCurrentBranch ∉
      (main ⟨some "tok", none⟩ samplePathExists lcStd sampleListing selectNone "main"
        ⟨204, "{}"⟩ (some "build") ⟨some "feat"⟩).1 ∧
    (∀ hd o rp wid rf, Effect.httpDispatch hd o rp wid rf ∈
      (main ⟨some "tok", none⟩ samplePathExists lcStd sampleListing selectNone "main"
        ⟨204, "{}"⟩ (some "build") ⟨some "feat"⟩).1 → rf = "feat") :=
  C6_explicit_ref ⟨some "tok", none⟩ samplePathExists lcStd sampleListing selectNone "main"
    ⟨204, "{}"⟩ (some "build") "feat" (by decide)

/-- C3: in every invocation that reaches the dispatch POST, a response status
other than 204 makes the command log the serialized response as an error and
exit with code 1, while a 204 response makes it log success and complete
normally, exiting 0. -/
theorem C3_dispatch_status (env : Env) (pathExists : String → Bool)
    (lc : String → String → Int) (listing : List Workflow)
    (select : List (String × Nat) → Option Nat) (branch : String)
    (resp : DispatchResponse) (name : Option String) (opts : CommandOptions)
    (hreach : ∃ hd o r wid rf, Effect.httpDispatch hd o r wid rf ∈
      (main env pathExists lc listing select branch resp name opts).1) :
    (resp.status ≠ 204 →
      (main env pathExists lc listing select branch resp name opts).2 =
        MainOutcome.exited 1 ∧
      Effect.log (LogEvent.error "💥 Dispatching workflow failed with response"
        resp.serialized) ∈ (main env pathExists lc listing select branch resp name opts).1) ∧
    (resp.status = 204 →
      (main env pathExists lc listing select branch resp name opts).2 =
        MainOutcome.completed ∧
      Effect.log (LogEvent.success "🎉 Successfully dispatched workflow event ")
        ∈ (main env pathExists lc listing select branch resp name opts).1) := by
  obtain ⟨hd, o, r, wid0, rf, hmem⟩ := hreach
  by_cases htok : strTruthy env.githubToken = true
  case neg =>
    exfalso
    have htok2 : strTruthy env.githubToken = false := by simpa using htok
    simp [main, htok2] at hmem
  rw [main_eq env pathExists lc listing select branch resp name opts htok] at hmem ⊢
  have hes := findWorkflowIdAsync_effects env.ci select
    (getWorkflowsAsync pathExists lc listing).2 name
  rcases hfr : (findWorkflowIdAsync env.ci select
      (getWorkflowsAsync pathExists lc listing).2 name).2 with msg | wid
  · exfalso
    rw [hfr] at hmem
    simp only [List.mem_cons] at hmem
    rcases hmem with hmem | hmem
    · simp at hmem
    · rcases hes with hes | hes <;> rw [hes] at hmem <;> simp at hmem
  · rw [hfr] at hmem
    by_cases hck : (!numTruthy wid || !((getWorkflowsAsync pathExists lc listing).2.any
        fun w => (some w.id : Option Nat) == wid)) = true
    · exfalso
      simp only [hck, if_true, List.mem_cons, List.mem_append,
        List.not_mem_nil, or_false] at hmem
      rcases hmem with hmem | hmem
      · simp at hmem
      · rcases hmem with hmem | hmem
        · rcases hes with hes | hes <;> rw [hes] at hmem <;> simp at hmem
        · revert hmem
          split <;> simp
    · simp only [hck, Bool.false_eq_true, if_false]
      constructor <;> intro hst
      · have hne : (resp.status ≠ 204) = True := by simp [hst]
        simp [dispatchWorkflowAsync, hne]
      · have hne : (resp.status ≠ 204) = False := by simp [hst]
        simp [dispatchWorkflowAsync, hne]


/-- Witness for C3: over the sample data, a 404 dispatch response makes the
run log the serialized response and exit 1, and a 204 response makes it log
success and complete normally. -/
theorem C3_dispatch_status_witness :
    ((main ⟨some "tok", none⟩ samplePathExists lcStd sampleListing selectNone "main"
        ⟨404, "resp"⟩ (some "build") ⟨some "feat"⟩).2 = MainOutcome.exited 1 ∧
      Effect.log (LogEvent.error "💥 Dispatching workflow failed with response" "resp") ∈
        (main ⟨some "tok", none⟩ samplePathExists lcStd sampleListing selectNone "main"
          ⟨404, "resp"⟩ (some "build") ⟨some "feat"⟩).1) ∧
    ((main ⟨some "tok", none⟩ samplePathExists lcStd sampleListing selectNone "main"
        ⟨204, "{}"⟩ (some "build") ⟨some "feat"⟩).2 = MainOutcome.completed ∧
      Effect.log (LogEvent.success "🎉 Successfully dispatched workflow event ") ∈
        (main ⟨some "tok", none⟩ samplePathExists lcStd sampleListing selectNone "main"
          ⟨204, "{}"⟩ (some "build") ⟨some "feat"⟩).1) := by
  have hfeat : strTruthy (some "feat") = true := by decide
  have hreach404 : ∃ hd o r wid rf, Effect.httpDispatch hd o r wid rf ∈
      (main ⟨some "tok", none⟩ samplePathExists lcStd sampleListing selectNone "main"
        ⟨404, "resp"⟩ (some "build") ⟨some "feat"⟩).1 := by
    refine ⟨⟨some "token tok"⟩, "expo", "expo", 1, "feat", ?_⟩
    rw [main_sample_build_eval]
    simp [hfeat, dispatchWorkflowAsync]
  have hreach204 : ∃ hd o r wid rf, Effect.httpDispatch hd o r wid rf ∈
      (main ⟨some "tok", none⟩ samplePathExists lcStd sampleListing selectNone "main"
        ⟨204, "{}"⟩ (some "build") ⟨some "feat"⟩).1 := by
    refine ⟨⟨some "token tok"⟩, "expo", "expo", 1, "feat", ?_⟩
    rw [main_sample_build_eval]
    simp [hfeat, dispatchWorkflowAsync]
  exact ⟨(C3_dispatch_status ⟨some "tok", none⟩ samplePathExists lcStd sampleListing
      selectNone "main" ⟨404, "resp"⟩ (some "build") ⟨some "feat"⟩ hreach404).1 (by decide),
    (C3_dispatch_status ⟨some "tok", none⟩ samplePathExists lcStd sampleListing
      selectNone "main" ⟨204, "{}"⟩ (some "build") ⟨some "feat"⟩ hreach204).2 rfl⟩


/-- Removes the authorization header from a dispatch request, leaving every
other effect unchanged; used to state that the token influences nothing but
that header. -/
def scrubAuth : Effect → Effect
  | Effect.httpDispatch _ o r wid rf => Effect.httpDispatch ⟨none⟩ o r wid rf
  | e => e

/-- Recognizes the workflow-listing request among the effects. -/
def isListing : Effect → Bool
  | Effect.httpGetWorkflows _ _ _ => true
  | _ => false

theorem filter_isListing_map_scrub (l : List Effect) :
    (l.map scrubAuth).filter isListing = l.filter isListing := by
  induction l with
  | nil => rfl
  | cons e l ih => cases e <;> simp [scrubAuth, isListing, ih]

theorem scrub_dispatch_trace (t1 t2 : Option String) (wid : Nat) (ref : String)
    (resp : DispatchResponse) :
    ((dispatchWorkflowAsync t1 wid ref resp).1).map scrubAuth =
      ((dispatchWorkflowAsync t2 wid ref resp).1).map scrubAuth ∧
    (dispatchWorkflowAsync t1 wid ref resp).2 = (dispatchWorkflowAsync t2 wid ref resp).2 := by
  simp only [dispatchWorkflowAsync]
  split <;> simp [scrubAuth]

/-- C9: the listing GET carries no authorization header and does not depend
on the token: two invocations differing only in the (present) token value
produce the same listing requests, the same outcome, and effect traces equal
up to the dispatch authorization header, which is the only place the token
appears. -/
theorem C9_token_noninterference (pathExists : String → Bool) (lc : String → String → Int)
    (listing : List Workflow) (select : List (String × Nat) → Option Nat)
    (branch : String) (resp : DispatchResponse) (name : Option String)
    (opts : CommandOptions) (ci : Option String) (t1 t2 : String)
    (h1 : t1 ≠ "") (h2 : t2 ≠ "") :
    ((main ⟨some t1, ci⟩ pathExists lc listing select branch resp name opts).1.map scrubAuth =
      (main ⟨some t2, ci⟩ pathExists lc listing select branch resp name opts).1.map scrubAuth) ∧
    ((main ⟨some t1, ci⟩ pathExists lc listing select branch resp name opts).2 =
      (main ⟨some t2, ci⟩ pathExists lc listing select branch resp name opts).2) ∧
    ((main ⟨some t1, ci⟩ pathExists lc listing select branch resp name opts).1.filter isListing =
      (main ⟨some t2, ci⟩ pathExists lc listing select branch resp name opts).1.filter isListing) ∧
    (∀ hd o r, Effect.httpGetWorkflows hd o r ∈
      (main ⟨some t1, ci⟩ pathExists lc listing select branch resp name opts).1 →
      hd = ⟨none⟩) ∧
    (∀ hd o r wid rf, Effect.httpDispatch hd o r wid rf ∈
      (main ⟨some t1, ci⟩ pathExists lc listing select branch resp name opts).1 →
      hd = ⟨some ("token " ++ t1)⟩) := by
  have htok1 : strTruthy (⟨some t1, ci⟩ : Env).githubToken = true := by
    simp [strTruthy, Bool.eq_false_iff, String.isEmpty_iff, h1]
  have htok2 : strTruthy (⟨some t2, ci⟩ : Env).githubToken = true := by
    simp [strTruthy, Bool.eq_false_iff, String.isEmpty_iff, h2]
  have hmain12 : ((main ⟨some t1, ci⟩ pathExists lc listing select branch resp name opts).1.map
        scrubAuth =
      (main ⟨some t2, ci⟩ pathExists lc listing select branch resp name opts).1.map
        scrubAuth) ∧
      ((main ⟨some t1, ci⟩ pathExists lc listing select branch resp name opts).2 =
        (main ⟨some t2, ci⟩ pathExists lc listing select branch resp name opts).2) := by
    rw [main_eq ⟨some t1, ci⟩ pathExists lc listing select branch resp name opts htok1,
      main_eq ⟨some t2, ci⟩ pathExists lc listing select branch resp name opts htok2]
    simp only [show (⟨some t1, ci⟩ : Env).ci = ci from rfl,
      show (⟨some t2, ci⟩ : Env).ci = ci from rfl,
      show (⟨some t1, ci⟩ : Env).githubToken = some t1 from rfl,
      show (⟨some t2, ci⟩ : Env).githubToken = some t2 from rfl]
    rcases hfr : (findWorkflowIdAsync ci select (getWorkflowsAsync pathExists lc listing).2
        name).2 with msg | wid
    · exact ⟨rfl, rfl⟩
    · by_cases hck : (!numTruthy wid || !((getWorkflowsAsync pathExists lc listing).2.any
          fun w => (some w.id : Option Nat) == wid)) = true
      · simp only [hck, if_true]
        exact ⟨by first | rfl | trivial, by first | rfl | trivial⟩
      · simp only [hck, Bool.false_eq_true, if_false]
        constructor
        · simp only [List.map_cons, List.map_append]
          rw [(scrub_dispatch_trace (some t1) (some t2) (wid.getD 0)
            (if strTruthy opts.ref = true then opts.ref.getD "" else branch) resp).1]
        · rw [(scrub_dispatch_trace (some t1) (some t2) (wid.getD 0)
            (if strTruthy opts.ref = true then opts.ref.getD "" else branch) resp).2]
  have key : ∀ e ∈ (main ⟨some t1, ci⟩ pathExists lc listing select branch resp name opts).1,
      (∀ hd o r, e = Effect.httpGetWorkflows hd o r → hd = ⟨none⟩) ∧
      (∀ hd o r wid rf, e = Effect.httpDispatch hd o r wid rf →
        hd = ⟨some ("token " ++ t1)⟩) := by
    intro e he
    rw [main_eq ⟨some t1, ci⟩ pathExists lc listing select branch resp name opts htok1] at he
    simp only [show (⟨some t1, ci⟩ : Env).ci = ci from rfl,
      show (⟨some t1, ci⟩ : Env).githubToken = some t1 from rfl] at he
    have hes := findWorkflowIdAsync_effects ci select
      (getWorkflowsAsync pathExists lc listing).2 name
    rcases hfr : (findWorkflowIdAsync ci select (getWorkflowsAsync pathExists lc listing).2
        name).2 with msg | wid
    · rw [hfr] at he
      simp only [List.mem_cons] at he
      rcases he with he | he
      · subst he
        exact ⟨fun hd o r heq => by simp only [Effect.httpGetWorkflows.injEq] at heq
                                    exact heq.1.symm,
          by simp⟩
      · rcases hes with hes | hes <;> rw [hes] at he <;> simp at he
        subst he
        exact ⟨by simp, by simp⟩
    · rw [hfr] at he
      by_cases hck : (!numTruthy wid || !((getWorkflowsAsync pathExists lc listing).2.any
          fun w => (some w.id : Option Nat) == wid)) = true
      · simp only [hck, if_true, List.mem_cons, List.mem_append,
          List.not_mem_nil, or_false] at he
        rcases he with he | he
        · subst he
          exact ⟨fun hd o r heq => by simp only [Effect.httpGetWorkflows.injEq] at heq
                                      exact heq.1.symm,
            by simp⟩
        · rcases he with he | he
          · rcases hes with hes | hes <;> rw [hes] at he <;> simp at he
            subst he
            exact ⟨by simp, by simp⟩
          · revert he
            split <;> intro he <;> simp at he
            subst he
            exact ⟨by simp, by simp⟩
      · simp only [hck, Bool.false_eq_true, if_false, List.mem_cons,
          List.mem_append, List.not_mem_nil, or_false] at he
        rcases he with he | ((he | he) | he)
        · subst he
          exact ⟨fun hd o r heq => by simp only [Effect.httpGetWorkflows.injEq] at heq
                                      exact heq.1.symm,
            by simp⟩
        · rcases hes with hes | hes <;> rw [hes] at he <;> simp at he
          subst he
          exact ⟨by simp, by simp⟩
        · revert he
          split <;> intro he <;> simp at he
          subst he
          exact ⟨by simp, by simp⟩
        · rcases mem_dispatch_trace _ _ _ _ _ he with hd1 | ⟨l, hd1⟩ <;> subst hd1
          · refine ⟨by simp, fun hd o rp wid2 rf2 heq => ?_⟩
            simp only [Effect.httpDispatch.injEq] at heq
            exact heq.1.symm
          · exact ⟨by simp, by simp⟩
  refine ⟨hmain12.1, hmain12.2, ?_, ?_, ?_⟩
  · rw [← filter_isListing_map_scrub, hmain12.1, filter_isListing_map_scrub]
  · exact fun hd o r hmem => (key _ hmem).1 hd o r rfl
  · exact fun hd o r wid rf hmem => (key _ hmem).2 hd o r wid rf rfl


/-- Witness for C9 at two concrete token values over the sample data. -/
theorem C9_token_noninterference_witness :
    ((main ⟨some "tokA", none⟩ samplePathExists lcStd sampleListing selectNone "main"
        ⟨204, "{}"⟩ (some "build") ⟨some "feat"⟩).1.map scrubAuth =
      (main ⟨some "tokB", none⟩ samplePathExists lcStd sampleListing selectNone "main"
        ⟨204, "{}"⟩ (some "build") ⟨some "feat"⟩).1.map scrubAuth) ∧
    ((main ⟨some "tokA", none⟩ samplePathExists lcStd sampleListing selectNone "main"
        ⟨204, "{}"⟩ (some "build") ⟨some "feat"⟩).2 =
      (main ⟨some "tokB", none⟩ samplePathExists lcStd sampleListing selectNone "main"
        ⟨204, "{}"⟩ (some "build") ⟨some "feat"⟩).2) ∧
    ((main ⟨some "tokA", none⟩ samplePathExists lcStd sampleListing selectNone "main"
        ⟨204, "{}"⟩ (some "build") ⟨some "feat"⟩).1.filter isListing =
      (main ⟨some "tokB", none⟩ samplePathExists lcStd sampleListing selectNone "main"
        ⟨204, "{}"⟩ (some "build") ⟨some "feat"⟩).1.filter isListing) ∧
    (∀ hd o r, Effect.httpGetWorkflows hd o r ∈
      (main ⟨some "tokA", none⟩ samplePathExists lcStd sampleListing selectNone "main"
        ⟨204, "{}"⟩ (some "build") ⟨some "feat"⟩).1 →
      hd = ⟨none⟩) ∧
    (∀ hd o r wid rf, Effect.httpDispatch hd o r wid rf ∈
      (main ⟨some "tokA", none⟩ samplePathExists lcStd sampleListing selectNone "main"
        ⟨204, "{}"⟩ (some "build") ⟨some "feat"⟩).1 →
      hd = ⟨some ("token " ++ "tokA")⟩) :=
  C9_token_noninterference samplePathExists lcStd sampleListing selectNone "main"
    ⟨204, "{}"⟩ (some "build") ⟨some "feat"⟩ none "tokA" "tokB" (by decide) (by decide)

end WorkflowDispatch
